import Mathlib

/-!
Verification development for the SpecFile-to-HDF5 structural converter
(`silx/io/spectoh5.py`).

The converter is shallowly embedded: HDF5 paths are lists of characters,
the target HDF5 container is an insertion-ordered association list from
paths to entries, and the two regular expressions of the source are
implemented as executable structural matchers.  Python exceptions
(`ValueError` on a bad link type, `IOError` on a bad file mode for
`convert`, and the `UnboundLocalError` that occurs when `ds`/`grp` is
referenced without having been assigned) are rendered as an `Option Err`
component of each operation's result, paired with the container state as
it stands when the exception surfaces.
-/

set_option autoImplicit false

/-- HDF5 paths are modelled as lists of characters. -/
abbrev H5Path := List Char

/-- Kinds of entries that the converter can place in the target HDF5 file:
groups, datasets (recording the data value, the shape, and the keyword
arguments that were passed to `create_dataset`), hard links and soft links
(both recording the path of the link target). -/
inductive Entry where
  | group : Entry
  | dataset (shape : List Nat) (data : Nat) (args : List String) : Entry
  | hardLink (target : H5Path) : Entry
  | softLink (target : H5Path) : Entry
  deriving DecidableEq

/-- Nodes of the source Spec tree, as exposed by `SpecFileH5.visititems`:
groups, datasets (with a shape, the empty list standing for the scalar
shape `()`, and a data value), and the two kinds of link nodes. -/
inductive SpecNode where
  | group : SpecNode
  | dataset (shape : List Nat) (data : Nat) : SpecNode
  | linkToGroup : SpecNode
  | linkToDataset : SpecNode
  deriving DecidableEq

/-- Python exceptions raised by the converter. -/
inductive Err where
  | valueError : Err
  | ioError : Err
  | unboundLocal : Err
  deriving DecidableEq

/-- Severity of a log record emitted through the module logger. -/
inductive LogLevel where
  | debug : LogLevel
  | warn : LogLevel
  deriving DecidableEq

/-- Mutating operations performed on the target HDF5 container, recorded in
order.  This is the observable write trace of the converter. -/
inductive H5Op where
  | createGroup (path : H5Path) : H5Op
  | createDataset (path : H5Path) (shape : List Nat) (args : List String) : H5Op
  | createLink (path : H5Path) (target : H5Path) : H5Op
  | delete (path : H5Path) : H5Op
  deriving DecidableEq

/-- State of the target HDF5 file during conversion: the container contents
(an insertion-ordered association list from paths to entries), the log
records emitted so far, and the trace of mutating container operations. -/
structure H5State where
  h5f : List (H5Path × Entry)
  log : List (LogLevel × H5Path)
  trace : List H5Op
  deriving DecidableEq

/-- Configuration of a conversion run: the target mount path `h5path`, the
`overwrite_data` flag, the `link_type` string and the
`create_dataset_args` keyword arguments. -/
structure Cfg where
  h5path : H5Path
  overwrite : Bool
  linkType : String
  createDatasetArgs : List String
  deriving DecidableEq

/-- Look up the entry stored at a path (first match in the association
list). -/
def findEntry : List (H5Path × Entry) → H5Path → Option Entry
  | [], _ => none
  | (k, v) :: rest, p => if k = p then some v else findEntry rest p

/-- Membership test, modelling the Python `name in h5f` check. -/
def hContains (m : List (H5Path × Entry)) (p : H5Path) : Bool :=
  (findEntry m p).isSome

/-- Remove every entry stored at a path, modelling `del h5f[name]`. -/
def delEntry : List (H5Path × Entry) → H5Path → List (H5Path × Entry)
  | [], _ => []
  | (k, v) :: rest, p => if k = p then delEntry rest p else (k, v) :: delEntry rest p

/-- Append a debug record to the log. -/
def logD (st : H5State) (m : H5Path) : H5State :=
  { st with log := st.log ++ [(LogLevel.debug, m)] }

/-- Append a warning record to the log, modelling `logger.warn`. -/
def logW (st : H5State) (m : H5Path) : H5State :=
  { st with log := st.log ++ [(LogLevel.warn, m)] }

/-- Delete the entry at a path and record the deletion in the trace. -/
def doDelete (st : H5State) (p : H5Path) : H5State :=
  { st with h5f := delEntry st.h5f p, trace := st.trace ++ [H5Op.delete p] }

/-- Create a group at a path, modelling `h5f.create_group`. -/
def doCreateGroup (st : H5State) (p : H5Path) : H5State :=
  { st with h5f := st.h5f ++ [(p, Entry.group)],
            trace := st.trace ++ [H5Op.createGroup p] }

/-- Create a dataset at a path with the given keyword arguments, modelling
`h5f.create_dataset`. -/
def doCreateDataset (st : H5State) (p : H5Path) (shape : List Nat) (data : Nat)
    (args : List String) : H5State :=
  { st with h5f := st.h5f ++ [(p, Entry.dataset shape data args)],
            trace := st.trace ++ [H5Op.createDataset p shape args] }

/-- Place a link entry at a path and record it in the trace. -/
def doCreateLink (st : H5State) (p : H5Path) (e : Entry) (tgt : H5Path) : H5State :=
  { st with h5f := st.h5f ++ [(p, e)],
            trace := st.trace ++ [H5Op.createLink p tgt] }

/-- Strip all leading separators, modelling `spec_h5_name.lstrip("/")`. -/
def lstripSlash (p : H5Path) : H5Path :=
  p.dropWhile (fun c => c == '/')

/-- Normalize the mount path by appending a separator when it does not
already end with one, as done at the top of `write_spec_to_h5`. -/
def normPath (p : H5Path) : H5Path :=
  if p.getLast? == some '/' then p else p ++ ['/']

/-- Target path of a source node: the mount path concatenated with the
source name after stripping its leading separators. -/
def targetPath (cfg : Cfg) (name : H5Path) : H5Path :=
  cfg.h5path ++ lstripSlash name

/-- Consume a maximal run of decimal digits. -/
def dropDigits : H5Path → H5Path
  | [] => []
  | c :: r => if c.isDigit then dropDigits r else c :: r

/-- Consume one or more decimal digits (the regex atom `[0-9]+`); returns
the remaining characters, or `none` when no digit is present. -/
def parseDigits : H5Path → Option H5Path
  | [] => none
  | c :: r => if c.isDigit then some (dropDigits r) else none

/-- End-of-string test for the regex anchor: Python dollar matches at the
end of the string or just before a trailing newline. -/
def dollarEnd (r : H5Path) : Bool :=
  r == ([] : H5Path) || r == ['\n']

/-- Remainder test for the tail `data` with the dollar anchor. -/
def dataTail (r : H5Path) : Bool :=
  r == "data".toList || r == "data".toList ++ ['\n']

/-- Remainder test for the regex tail fragment of the dataset pattern: an
optional separator followed by `data` and the dollar anchor. -/
def dataEnd (r : H5Path) : Bool :=
  dataTail r ||
    (match r with
     | '/' :: r5 => dataTail r5
     | _ => false)

/-- Remainder test for the regex tail fragment of the group pattern: an
optional separator followed by the dollar anchor. -/
def groupEnd (r : H5Path) : Bool :=
  dollarEnd r ||
    (match r with
     | '/' :: r5 => dollarEnd r5
     | _ => false)

/-- Common core of the two source regexes after the leading wildcard: a
separator, two dot-separated digit groups, the literal
`/instrument/mca_`, one digit group, then the end fragment `fin`. -/
def mcaTail (fin : H5Path → Bool) : H5Path → Bool
  | '/' :: r =>
    (match parseDigits r with
     | some ('.' :: r2) =>
       (match parseDigits r2 with
        | some r3 =>
          if ("/instrument/mca_".toList).isPrefixOf r3 then
            (match parseDigits (r3.drop 16) with
             | some r4 => fin r4
             | none => false)
          else false
        | none => false)
     | _ => false)
  | _ => false

/-- Scan for a split point of the leading `.*` (which never crosses a
newline) such that the rest of the string matches `tail`. -/
def scanMatch (tail : H5Path → Bool) : H5Path → Bool
  | [] => tail []
  | c :: rest => tail (c :: rest) || (c != '\n' && scanMatch tail rest)

/-- Matcher for the dataset alias regex of the source. -/
def mcaData (p : H5Path) : Bool :=
  scanMatch (mcaTail dataEnd) p

/-- Matcher for the group alias regex of the source. -/
def mcaGroup (p : H5Path) : Bool :=
  scanMatch (mcaTail groupEnd) p

/-- Replace every occurrence of `instrument` by `measurement`, scanning
left to right without overlap, modelling the Python string replace used to
derive alias link names. -/
def replaceInstr : H5Path → H5Path
  | 'i' :: 'n' :: 's' :: 't' :: 'r' :: 'u' :: 'm' :: 'e' :: 'n' :: 't' :: r =>
      "measurement".toList ++ replaceInstr r
  | c :: r => c :: replaceInstr r
  | [] => []

/-- Second half of `create_link`: materialize the link according to
`link_type`, raising the configuration error on any unrecognized kind. -/
def linkStep (cfg : Cfg) (st : H5State) (linkName tgtName : H5Path) :
    H5State × Option Err :=
  if cfg.linkType = "hard" then
    (doCreateLink st linkName (Entry.hardLink tgtName) tgtName, none)
  else if cfg.linkType = "soft" then
    (doCreateLink st linkName (Entry.softLink tgtName) tgtName, none)
  else
    (st, some Err.valueError)

/-- Model of the inner function `create_link` of `write_spec_to_h5`: when
the link name is free, log and materialize; when it is taken and
`overwrite_data` is set, warn, delete the existing entry and materialize;
otherwise warn and return without touching the container. -/
def create_link (cfg : Cfg) (st : H5State) (linkName tgtName : H5Path) :
    H5State × Option Err :=
  if hContains st.h5f linkName = false then
    linkStep cfg (logD st ("Creating link ".toList ++ linkName)) linkName tgtName
  else if cfg.overwrite then
    linkStep cfg (doDelete (logW st ("Overwriting ".toList ++ linkName)) linkName)
      linkName tgtName
  else
    (logW st (linkName ++ " already exist".toList), none)

/-- Final statement of the dataset branch: when `overwrite_data` is unset
and the member already existed, warn that the existing dataset is kept. -/
def datasetFinish (cfg : Cfg) (st : H5State) (h5name : H5Path) (ex : Bool) :
    H5State × Option Err :=
  if !cfg.overwrite && ex then
    (logW st ("Ignoring existing dataset: ".toList ++ h5name), none)
  else (st, none)

/-- Alias link creation followed by the final statement of the dataset
branch: propagate an exception from `create_link` with the state it left
behind, otherwise run the trailing skip warning. -/
def linkThenFinish (cfg : Cfg) (stC : H5State) (ln tn h5 : H5Path) (ex : Bool) :
    H5State × Option Err :=
  match create_link cfg stC ln tn with
  | (stD, some e) => (stD, some e)
  | (stD, none) => datasetFinish cfg stD h5 ex

/-- First half of the dataset branch: the debug log and, when
`overwrite_data` is set and the member already exists, the warning and the
deletion of the existing member. -/
def datasetPrep (cfg : Cfg) (st : H5State) (h5name : H5Path) : H5State :=
  let ex := hContains st.h5f h5name
  let stA := logD st ("Saving dataset: ".toList ++ h5name)
  if cfg.overwrite && ex then
    doDelete (logW stA ("Overwriting dataset: ".toList ++ h5name)) h5name
  else stA

/-- Dataset branch of `append_spec_member_to_h5`: record the prior
existence of the member, delete it when overwriting, create the dataset
(passing the creation arguments only for non-scalar shapes), then test the
alias pattern; the alias link targets the local variable `ds`, which is
assigned only when the dataset was created on this pass, so a skipped
matching dataset raises the unbound-local error. -/
def datasetStep (cfg : Cfg) (st : H5State) (h5name : H5Path)
    (shape : List Nat) (data : Nat) : H5State × Option Err :=
  let ex := hContains st.h5f h5name
  let stB := datasetPrep cfg st h5name
  let created := cfg.overwrite || !ex
  let stC := if created then
      (if shape = [] then doCreateDataset stB h5name shape data []
       else doCreateDataset stB h5name shape data cfg.createDatasetArgs)
    else stB
  if mcaData h5name then
    (if created then linkThenFinish cfg stC (replaceInstr h5name) h5name h5name ex
     else (stC, some Err.unboundLocal))
  else datasetFinish cfg stC h5name ex

/-- Group branch of `append_spec_member_to_h5`: create the group only when
the target path is free, then test the group alias pattern; the alias link
targets the local variable `grp`, which is assigned only when the group
was created on this pass, so an existing matching group raises the
unbound-local error. -/
def groupStep (cfg : Cfg) (st : H5State) (h5name : H5Path) :
    H5State × Option Err :=
  let ex := hContains st.h5f h5name
  let stA := if !ex then
      doCreateGroup (logD st ("Creating group: ".toList ++ h5name)) h5name
    else st
  if mcaGroup h5name then
    (if !ex then
      create_link cfg stA (replaceInstr h5name ++ "/info".toList) h5name
     else (stA, some Err.unboundLocal))
  else (stA, none)

/-- Model of the visit callback `append_spec_member_to_h5`: link nodes are
ignored, dataset and group nodes are dispatched to their branches. -/
def append_spec_member_to_h5 (cfg : Cfg) (st : H5State) (name : H5Path)
    (obj : SpecNode) : H5State × Option Err :=
  match obj with
  | SpecNode.linkToGroup =>
      (logD st ("Ignoring link: ".toList ++ targetPath cfg name), none)
  | SpecNode.linkToDataset =>
      (logD st ("Ignoring link: ".toList ++ targetPath cfg name), none)
  | SpecNode.dataset shape data => datasetStep cfg st (targetPath cfg name) shape data
  | SpecNode.group => groupStep cfg st (targetPath cfg name)

/-- Visit the source items in order, stopping at the first exception with
the container state reached at that point, modelling
`sfh5.visititems(append_spec_member_to_h5)`. -/
def runItems (cfg : Cfg) : List (H5Path × SpecNode) → H5State → H5State × Option Err
  | [], st => (st, none)
  | (n, o) :: rest, st =>
    match append_spec_member_to_h5 cfg st n o with
    | (st2, some e) => (st2, some e)
    | (st2, none) => runItems cfg rest st2

/-- Model of `write_spec_to_h5`: normalize the mount path, then visit every
source item. -/
def write_spec_to_h5 (cfg : Cfg) (source : List (H5Path × SpecNode))
    (st : H5State) : H5State × Option Err :=
  runItems { cfg with h5path := normPath cfg.h5path } source st

/-- Model of the convenience entry point `convert`: reject any file mode
other than the two create-new-file modes before delegating to
`write_spec_to_h5` with the root mount path and the default overwrite
policy. -/
def convert (fileMode : String) (linkTy : String) (args : List String)
    (source : List (H5Path × SpecNode)) (st : H5State) : H5State × Option Err :=
  if fileMode = "w" ∨ fileMode = "w-" then
    write_spec_to_h5
      { h5path := "/".toList, overwrite := false, linkType := linkTy,
        createDatasetArgs := args } source st
  else (st, some Err.ioError)

/-- Empty target state. -/
def st0 : H5State := { h5f := [], log := [], trace := [] }

/-! ### Basic lemmas about the container map and the state helpers -/

@[simp] theorem logD_h5f (st : H5State) (m : H5Path) : (logD st m).h5f = st.h5f := rfl

@[simp] theorem logW_h5f (st : H5State) (m : H5Path) : (logW st m).h5f = st.h5f := rfl

@[simp] theorem logD_trace (st : H5State) (m : H5Path) : (logD st m).trace = st.trace := rfl

@[simp] theorem logW_trace (st : H5State) (m : H5Path) : (logW st m).trace = st.trace := rfl

@[simp] theorem doDelete_h5f (st : H5State) (p : H5Path) :
    (doDelete st p).h5f = delEntry st.h5f p := rfl

@[simp] theorem doDelete_trace (st : H5State) (p : H5Path) :
    (doDelete st p).trace = st.trace ++ [H5Op.delete p] := rfl

@[simp] theorem doCreateGroup_h5f (st : H5State) (p : H5Path) :
    (doCreateGroup st p).h5f = st.h5f ++ [(p, Entry.group)] := rfl

@[simp] theorem doCreateGroup_trace (st : H5State) (p : H5Path) :
    (doCreateGroup st p).trace = st.trace ++ [H5Op.createGroup p] := rfl

@[simp] theorem doCreateDataset_h5f (st : H5State) (p : H5Path) (sh : List Nat)
    (d : Nat) (a : List String) :
    (doCreateDataset st p sh d a).h5f = st.h5f ++ [(p, Entry.dataset sh d a)] := rfl

@[simp] theorem doCreateDataset_trace (st : H5State) (p : H5Path) (sh : List Nat)
    (d : Nat) (a : List String) :
    (doCreateDataset st p sh d a).trace = st.trace ++ [H5Op.createDataset p sh a] := rfl

@[simp] theorem doCreateLink_h5f (st : H5State) (p : H5Path) (e : Entry) (t : H5Path) :
    (doCreateLink st p e t).h5f = st.h5f ++ [(p, e)] := rfl

@[simp] theorem doCreateLink_trace (st : H5State) (p : H5Path) (e : Entry) (t : H5Path) :
    (doCreateLink st p e t).trace = st.trace ++ [H5Op.createLink p t] := rfl

theorem findEntry_append_left {m : List (H5Path × Entry)} (m2 : List (H5Path × Entry))
    {q : H5Path} {e : Entry} (h : findEntry m q = some e) :
    findEntry (m ++ m2) q = some e := by
  induction m with
  | nil => simp [findEntry] at h
  | cons kv rest ih =>
    obtain ⟨k, v⟩ := kv
    by_cases hk : k = q
    · simp [findEntry, hk] at h ⊢
      exact h
    · simp [findEntry, hk] at h ⊢
      exact ih h

theorem findEntry_append_right {m : List (H5Path × Entry)} (m2 : List (H5Path × Entry))
    {q : H5Path} (h : findEntry m q = none) :
    findEntry (m ++ m2) q = findEntry m2 q := by
  induction m with
  | nil => simp [findEntry]
  | cons kv rest ih =>
    obtain ⟨k, v⟩ := kv
    by_cases hk : k = q
    · simp [findEntry, hk] at h
    · simp [findEntry, hk] at h ⊢
      exact ih h

theorem findEntry_append_single_ne {m : List (H5Path × Entry)} {k q : H5Path}
    {v : Entry} (h : q ≠ k) :
    findEntry (m ++ [(k, v)]) q = findEntry m q := by
  cases hm : findEntry m q with
  | some e => exact findEntry_append_left _ hm
  | none =>
    rw [findEntry_append_right _ hm]
    have hk : ¬ k = q := fun hk => h hk.symm
    simp [findEntry, hk]

theorem findEntry_append_single_self {m : List (H5Path × Entry)} {k : H5Path}
    {v : Entry} (h : findEntry m k = none) :
    findEntry (m ++ [(k, v)]) k = some v := by
  rw [findEntry_append_right _ h]
  simp [findEntry]

theorem findEntry_delEntry (m : List (H5Path × Entry)) (p q : H5Path) :
    findEntry (delEntry m p) q = if q = p then none else findEntry m q := by
  induction m with
  | nil => simp [delEntry, findEntry]
  | cons kv rest ih =>
    obtain ⟨k, v⟩ := kv
    simp only [delEntry]
    by_cases hk : k = p
    · simp only [if_pos hk, ih]
      by_cases hq : q = p
      · simp [hq]
      · have hkq : ¬ k = q := by
          rw [hk]
          exact fun h2 => hq h2.symm
        simp [hq, findEntry, hkq]
    · simp only [if_neg hk, findEntry]
      by_cases hq2 : k = q
      · have hqp : ¬ q = p := by
          rw [← hq2]
          exact hk
        simp [hq2, hqp]
      · simp [hq2, ih]

theorem hContains_false_iff {m : List (H5Path × Entry)} {p : H5Path} :
    hContains m p = false ↔ findEntry m p = none := by
  unfold hContains
  cases findEntry m p <;> simp

theorem hContains_true_iff {m : List (H5Path × Entry)} {p : H5Path} :
    hContains m p = true ↔ ∃ e, findEntry m p = some e := by
  unfold hContains
  cases findEntry m p <;> simp

/-! ### Lemmas about the inner function create_link -/

theorem create_link_findEntry_ne {cfg : Cfg} {st : H5State} {ln tn q : H5Path}
    (h : q ≠ ln) :
    findEntry (create_link cfg st ln tn).1.h5f q = findEntry st.h5f q := by
  unfold create_link linkStep
  split
  · split
    · simp [findEntry_append_single_ne h]
    · split
      · simp [findEntry_append_single_ne h]
      · simp
  · split
    · split
      · simp [findEntry_append_single_ne h, findEntry_delEntry, h]
      · split
        · simp [findEntry_append_single_ne h, findEntry_delEntry, h]
        · simp [findEntry_delEntry, h]
    · simp

theorem create_link_trace_mem {cfg : Cfg} {st : H5State} {ln tn : H5Path}
    {op : H5Op} (h : op ∈ (create_link cfg st ln tn).1.trace) :
    op ∈ st.trace ∨ (cfg.overwrite = true ∧ op = H5Op.delete ln) ∨
      op = H5Op.createLink ln tn := by
  unfold create_link linkStep at h
  split at h
  · split at h <;> [skip; split at h] <;> (simp_all [List.mem_append]; try tauto)
  · split at h
    · split at h <;> [skip; split at h] <;> (simp_all [List.mem_append]; try tauto)
    · simp_all

theorem create_link_absent_valid {cfg : Cfg} {st : H5State} {ln tn : H5Path}
    (h : hContains st.h5f ln = false)
    (hk : cfg.linkType = "hard" ∨ cfg.linkType = "soft") :
    (create_link cfg st ln tn).2 = none ∧
      findEntry (create_link cfg st ln tn).1.h5f ln =
        some (if cfg.linkType = "hard" then Entry.hardLink tn else Entry.softLink tn) := by
  have hn : findEntry st.h5f ln = none := hContains_false_iff.mp h
  unfold create_link linkStep
  rcases hk with hk | hk
  · simp [h, hk, findEntry_append_single_self hn]
  · by_cases hh : cfg.linkType = "hard"
    · simp [h, hh, findEntry_append_single_self hn]
    · simp [h, hk, hh, findEntry_append_single_self hn]

theorem create_link_absent_bad {cfg : Cfg} {st : H5State} {ln tn : H5Path}
    (h : hContains st.h5f ln = false)
    (h1 : cfg.linkType ≠ "hard") (h2 : cfg.linkType ≠ "soft") :
    create_link cfg st ln tn =
      (logD st ("Creating link ".toList ++ ln), some Err.valueError) := by
  unfold create_link linkStep
  simp [h, h1, h2]

/-! ### Concrete fixtures -/

/-- Default configuration: root mount, no overwrite, hard links, no dataset
creation arguments. -/
def cfgHard : Cfg :=
  { h5path := "/".toList, overwrite := false, linkType := "hard", createDatasetArgs := [] }

/-- Configuration with an unrecognized link type. -/
def cfgBad : Cfg :=
  { h5path := "/".toList, overwrite := false, linkType := "bogus", createDatasetArgs := [] }

/-- Configuration with overwrite enabled and an unrecognized link type. -/
def cfgBadOw : Cfg :=
  { h5path := "/".toList, overwrite := true, linkType := "bogus", createDatasetArgs := [] }

/-- Configuration with overwrite enabled and hard links. -/
def cfgOw : Cfg :=
  { h5path := "/".toList, overwrite := true, linkType := "hard", createDatasetArgs := [] }

/-- Configuration whose mount path itself contains the segment
`instrument`. -/
def cfgMount : Cfg :=
  { h5path := "/instrument/".toList, overwrite := false, linkType := "hard",
    createDatasetArgs := [] }

/-- A one-dataset source tree whose dataset path matches the mca alias
pattern. -/
def srcMca : List (H5Path × SpecNode) :=
  [("/1.1/instrument/mca_0/data".toList, SpecNode.dataset [2] 5)]

/-- A small source tree with an mca group and its data dataset. -/
def srcScan : List (H5Path × SpecNode) :=
  [("/1.1/instrument/mca_0".toList, SpecNode.group),
   ("/1.1/instrument/mca_0/data".toList, SpecNode.dataset [2] 5)]

/-- Target already holding the mca 2 data dataset. -/
def stPre3 : H5State :=
  { h5f := [("/1.1/instrument/mca_2/data".toList, Entry.dataset [3] 1 [])],
    log := [], trace := [] }

/-- Target already holding the mca 1 data dataset. -/
def stPre5 : H5State :=
  { h5f := [("/1.1/instrument/mca_1/data".toList, Entry.dataset [2] 7 [])],
    log := [], trace := [] }

/-- Target already holding a group at a plain path. -/
def stPre7 : H5State :=
  { h5f := [("/a".toList, Entry.group)], log := [], trace := [] }

/-- Target already holding a group at the path used as a link name. -/
def stPre10 : H5State :=
  { h5f := [("/x".toList, Entry.group)], log := [], trace := [] }

/-! ### Claim theorems: concrete evaluations -/

/-- Claim C1, counterexample.  With the unrecognized link kind `bogus` and
a source holding one mca data dataset, the conversion does raise the
configuration error, but the target already holds the dataset created just
before the failing link creation: the error is not raised before any write
and the target is not unchanged when it surfaces, contradicting C1 as
stated. -/
theorem C1_counterexample :
    (write_spec_to_h5 cfgBad srcMca st0).2 = some Err.valueError ∧
      findEntry (write_spec_to_h5 cfgBad srcMca st0).1.h5f
          "/1.1/instrument/mca_0/data".toList =
        some (Entry.dataset [2] 5 []) := by
  constructor <;> decide

/-- Claim C2, evaluation at the failing input.  Converting the two-node
scan source into an empty target with `overwrite=false` succeeds, but
running the identical conversion a second time against the produced target
raises the unbound-local error (the Python `UnboundLocalError` on `grp`)
at the first existing mca group, instead of completing with warnings
only. -/
theorem C2_bug_eval :
    (write_spec_to_h5 cfgHard srcScan st0).2 = none ∧
      (write_spec_to_h5 cfgHard srcScan (write_spec_to_h5 cfgHard srcScan st0).1).2 =
        some Err.unboundLocal := by
  constructor <;> decide

/-- Claim C3, counterexample.  A dataset node whose target path already
exists under `overwrite=false` is skipped, yet the alias-pattern check and
the link creation are still attempted for it: the attempt dereferences the
unassigned dataset variable and raises, while no container operation was
traced.  C3 as stated (no alias inspection for skipped datasets, hence an
errorless skip) is false. -/
theorem C3_counterexample :
    (append_spec_member_to_h5 cfgHard stPre3 "/1.1/instrument/mca_2/data".toList
        (SpecNode.dataset [3] 1)).2 = some Err.unboundLocal ∧
      (append_spec_member_to_h5 cfgHard stPre3 "/1.1/instrument/mca_2/data".toList
          (SpecNode.dataset [3] 1)).1.trace = [] := by
  constructor <;> decide

/-- Claim C4, counterexample.  When the mount path itself contains the
segment `instrument`, the derived link path substitutes every occurrence,
not only the matching segment: the link appears at
`/measurement/1.1/measurement/mca_0/data` and not at
`/instrument/1.1/measurement/mca_0/data` as C4 states. -/
theorem C4_counterexample :
    (append_spec_member_to_h5 cfgMount st0 "/1.1/instrument/mca_0/data".toList
        (SpecNode.dataset [2] 9)).2 = none ∧
      findEntry (append_spec_member_to_h5 cfgMount st0 "/1.1/instrument/mca_0/data".toList
          (SpecNode.dataset [2] 9)).1.h5f
          "/instrument/1.1/measurement/mca_0/data".toList = none ∧
      findEntry (append_spec_member_to_h5 cfgMount st0 "/1.1/instrument/mca_0/data".toList
          (SpecNode.dataset [2] 9)).1.h5f
          "/measurement/1.1/measurement/mca_0/data".toList =
        some (Entry.hardLink "/instrument/1.1/instrument/mca_0/data".toList) := by
  refine ⟨by decide, by decide, by decide⟩

/-- Claim C5, evaluation at the failing input.  A dataset node whose
target path already exists under `overwrite=false` and matches the mca
alias pattern is not skipped with a warning and no error: the converter
raises the unbound-local error instead. -/
theorem C5_bug_eval :
    (append_spec_member_to_h5 cfgHard stPre5 "/1.1/instrument/mca_1/data".toList
        (SpecNode.dataset [2] 7)).2 = some Err.unboundLocal := by
  decide

/-- Claim C7, counterexample.  With `overwrite=true`, a dataset node whose
target path is occupied by an existing group deletes that group and
creates the dataset in its place: the converter does delete an existing
group, contradicting the universal part of C7. -/
theorem C7_counterexample :
    findEntry stPre7.h5f "/a".toList = some Entry.group ∧
      (write_spec_to_h5 cfgOw [("/a".toList, SpecNode.dataset [1] 2)] stPre7).2 = none ∧
      H5Op.delete "/a".toList ∈
        (write_spec_to_h5 cfgOw [("/a".toList, SpecNode.dataset [1] 2)] stPre7).1.trace ∧
      findEntry (write_spec_to_h5 cfgOw [("/a".toList, SpecNode.dataset [1] 2)] stPre7).1.h5f
          "/a".toList = some (Entry.dataset [1] 2 []) := by
  refine ⟨by decide, by decide, by decide, by decide⟩

/-- Claim C8.  The convenience entry point rejects every file mode other
than the two create-new-file modes with the configuration error, returning
the target state untouched: nothing is opened and nothing is delegated to
the full conversion. -/
theorem C8_mode_check (fileMode linkTy : String) (args : List String)
    (source : List (H5Path × SpecNode)) (st : H5State)
    (h1 : fileMode ≠ "w") (h2 : fileMode ≠ "w-") :
    convert fileMode linkTy args source st = (st, some Err.ioError) := by
  simp [convert, h1, h2]

/-- Witness for C8: the documented scenario `fileMode="a"`. -/
theorem C8_witness :
    convert "a" "hard" [] srcMca st0 = (st0, some Err.ioError) :=
  C8_mode_check "a" "hard" [] srcMca st0 (by decide) (by decide)

/-- Claim C10.  In `create_link`, when the link path is occupied and
`overwrite_data` is set, the existing entry is deleted before the link
kind is validated: with an unrecognized link kind the configuration error
surfaces with the entry already removed from the target. -/
theorem C10_delete_before_validation (cfg : Cfg) (st : H5State) (ln tn : H5Path)
    (hex : hContains st.h5f ln = true) (how : cfg.overwrite = true)
    (h1 : cfg.linkType ≠ "hard") (h2 : cfg.linkType ≠ "soft") :
    (create_link cfg st ln tn).2 = some Err.valueError ∧
      findEntry (create_link cfg st ln tn).1.h5f ln = none := by
  unfold create_link linkStep
  simp [hex, how, h1, h2, findEntry_delEntry]

/-- Witness for C10: a pre-existing entry at the link path, overwrite
enabled and an unrecognized link kind. -/
theorem C10_witness :
    (create_link cfgBadOw stPre10 "/x".toList "/y".toList).2 = some Err.valueError ∧
      findEntry (create_link cfgBadOw stPre10 "/x".toList "/y".toList).1.h5f
          "/x".toList = none :=
  C10_delete_before_validation cfgBadOw stPre10 "/x".toList "/y".toList
    (by decide) (by decide) (by decide) (by decide)

/-! ### Support lemmas for the general theorems -/

theorem create_link_trace_mono {cfg : Cfg} {st : H5State} {ln tn : H5Path}
    {op : H5Op} (h : op ∈ st.trace) :
    op ∈ (create_link cfg st ln tn).1.trace := by
  unfold create_link linkStep
  split
  · split <;> [skip; split] <;> simp_all [List.mem_append]
  · split
    · split <;> [skip; split] <;> simp_all [List.mem_append]
    · simp_all

theorem datasetStep_absent_match (cfg : Cfg) (st : H5State) (h5name : H5Path)
    (shape : List Nat) (data : Nat)
    (habs : hContains st.h5f h5name = false) (hpat : mcaData h5name = true) :
    datasetStep cfg st h5name shape data =
      linkThenFinish cfg
        (doCreateDataset (logD st ("Saving dataset: ".toList ++ h5name)) h5name shape data
          (if shape = [] then [] else cfg.createDatasetArgs))
        (replaceInstr h5name) h5name h5name false := by
  unfold datasetStep datasetPrep
  by_cases hsh : shape = [] <;> simp [habs, hpat, hsh]

/-! ### Claim theorems: general statements -/

/-- Claim C3, amended.  For every dataset node skipped under
`overwrite=false` because its target path already exists, the alias
pattern inspection is still performed: when the pattern matches, the link
creation is attempted with the unassigned dataset variable and the
unbound-local error is raised; when it does not match, the skip completes
without error. -/
theorem C3_amended_thm (cfg : Cfg) (st : H5State) (name : H5Path)
    (shape : List Nat) (data : Nat) (hov : cfg.overwrite = false)
    (hex : hContains st.h5f (targetPath cfg name) = true) :
    (append_spec_member_to_h5 cfg st name (SpecNode.dataset shape data)).2 =
      (if mcaData (targetPath cfg name) then some Err.unboundLocal else none) := by
  unfold append_spec_member_to_h5 datasetStep datasetFinish
  by_cases hm : mcaData (targetPath cfg name) <;> simp [hov, hex, hm]

/-- Witness for the amended C3. -/
theorem C3_amended_witness :
    cfgHard.overwrite = false ∧
      hContains stPre3.h5f (targetPath cfgHard "/1.1/instrument/mca_2/data".toList) = true ∧
      (append_spec_member_to_h5 cfgHard stPre3 "/1.1/instrument/mca_2/data".toList
          (SpecNode.dataset [3] 1)).2 =
        (if mcaData (targetPath cfgHard "/1.1/instrument/mca_2/data".toList) then
          some Err.unboundLocal else none) :=
  ⟨by decide, by decide,
    C3_amended_thm cfgHard stPre3 "/1.1/instrument/mca_2/data".toList [3] 1
      (by decide) (by decide)⟩

theorem datasetFinish_trace {cfg : Cfg} {stX : H5State} {h5 : H5Path} {ex : Bool}
    {op : H5Op} (h : op ∈ (datasetFinish cfg stX h5 ex).1.trace) : op ∈ stX.trace := by
  unfold datasetFinish at h
  split at h
  · exact h
  · exact h

theorem linkThenFinish_trace_mem {cfg : Cfg} {stC : H5State} {ln tn h5 : H5Path}
    {ex : Bool} {op : H5Op}
    (h : op ∈ (linkThenFinish cfg stC ln tn h5 ex).1.trace) :
    op ∈ stC.trace ∨ (cfg.overwrite = true ∧ op = H5Op.delete ln) ∨
      op = H5Op.createLink ln tn := by
  unfold linkThenFinish at h
  rcases hcl : create_link cfg stC ln tn with ⟨stD, err⟩
  rw [hcl] at h
  have hd : op ∈ stD.trace := by
    cases err with
    | some e => exact h
    | none => exact datasetFinish_trace h
  have h2 : op ∈ (create_link cfg stC ln tn).1.trace := by
    rw [hcl]
    exact hd
  exact create_link_trace_mem h2


theorem groupStep_trace_mem {cfg : Cfg} {st : H5State} {h5 : H5Path} {op : H5Op}
    (h : op ∈ (groupStep cfg st h5).1.trace) :
    op ∈ st.trace ∨
      (hContains st.h5f h5 = false ∧ op = H5Op.createGroup h5) ∨
      (cfg.overwrite = true ∧ op = H5Op.delete (replaceInstr h5 ++ "/info".toList)) ∨
      op = H5Op.createLink (replaceInstr h5 ++ "/info".toList) h5 := by
  unfold groupStep at h
  cases hex : hContains st.h5f h5 with
  | true =>
    simp only [hex, Bool.not_true, Bool.false_eq_true, if_false] at h
    split at h
    · exact Or.inl h
    · exact Or.inl h
  | false =>
    simp only [hex, Bool.not_false, if_true] at h
    split at h
    · rcases create_link_trace_mem h with h | h | h
      · simp only [doCreateGroup_trace, logD_trace] at h
        rcases List.mem_append.mp h with h | h
        · exact Or.inl h
        · exact Or.inr (Or.inl ⟨rfl, List.mem_singleton.mp h⟩)
      · exact Or.inr (Or.inr (Or.inl h))
      · exact Or.inr (Or.inr (Or.inr h))
    · simp only [doCreateGroup_trace, logD_trace] at h
      rcases List.mem_append.mp h with h | h
      · exact Or.inl h
      · exact Or.inr (Or.inl ⟨rfl, List.mem_singleton.mp h⟩)

theorem groupStep_trace_mono {cfg : Cfg} {st : H5State} {h5 : H5Path} {op : H5Op}
    (h : op ∈ st.trace) : op ∈ (groupStep cfg st h5).1.trace := by
  unfold groupStep
  cases hex : hContains st.h5f h5 with
  | true =>
    simp only [hex, Bool.not_true, Bool.false_eq_true, if_false]
    split
    · exact h
    · exact h
  | false =>
    simp only [hex, Bool.not_false, if_true]
    split
    · refine create_link_trace_mono ?_
      simp only [doCreateGroup_trace, logD_trace]
      exact List.mem_append.mpr (Or.inl h)
    · simp only [doCreateGroup_trace, logD_trace]
      exact List.mem_append.mpr (Or.inl h)

theorem groupStep_creates {cfg : Cfg} {st : H5State} {h5 : H5Path}
    (hex : hContains st.h5f h5 = false) :
    H5Op.createGroup h5 ∈ (groupStep cfg st h5).1.trace := by
  unfold groupStep
  simp only [hex, Bool.not_false, if_true]
  split
  · refine create_link_trace_mono ?_
    simp only [doCreateGroup_trace, logD_trace]
    exact List.mem_append.mpr (Or.inr (List.mem_singleton.mpr rfl))
  · simp only [doCreateGroup_trace, logD_trace]
    exact List.mem_append.mpr (Or.inr (List.mem_singleton.mpr rfl))

theorem datasetPrep_trace_mem {cfg : Cfg} {st : H5State} {h5 : H5Path} {op : H5Op}
    (h : op ∈ (datasetPrep cfg st h5).trace) : op ∈ st.trace ∨ op = H5Op.delete h5 := by
  unfold datasetPrep at h
  simp only [] at h
  split at h
  · simp only [doDelete_trace, logW_trace, logD_trace] at h
    rcases List.mem_append.mp h with h | h
    · exact Or.inl h
    · exact Or.inr (List.mem_singleton.mp h)
  · exact Or.inl h

theorem datasetStep_trace_mem {cfg : Cfg} {st : H5State} {h5 : H5Path}
    {shape : List Nat} {data : Nat} {op : H5Op}
    (h : op ∈ (datasetStep cfg st h5 shape data).1.trace) :
    op ∈ st.trace ∨ op = H5Op.delete h5 ∨
      op = H5Op.createDataset h5 shape (if shape = [] then [] else cfg.createDatasetArgs) ∨
      (cfg.overwrite = true ∧ op = H5Op.delete (replaceInstr h5)) ∨
      op = H5Op.createLink (replaceInstr h5) h5 := by
  unfold datasetStep at h
  simp only [] at h
  split at h
  · split at h
    · split at h <;>
        · rcases linkThenFinish_trace_mem h with h | h | h
          · simp only [doCreateDataset_trace] at h
            rcases List.mem_append.mp h with h | h
            · rcases datasetPrep_trace_mem h with h | h
              · exact Or.inl h
              · exact Or.inr (Or.inl h)
            · have h2 := List.mem_singleton.mp h
              subst h2
              simp_all
          · exact Or.inr (Or.inr (Or.inr (Or.inl h)))
          · exact Or.inr (Or.inr (Or.inr (Or.inr h)))
    · rcases datasetPrep_trace_mem h with h | h
      · exact Or.inl h
      · exact Or.inr (Or.inl h)
  · have hd := datasetFinish_trace h
    split at hd
    · split at hd <;>
        · simp only [doCreateDataset_trace] at hd
          rcases List.mem_append.mp hd with hd | hd
          · rcases datasetPrep_trace_mem hd with hd | hd
            · exact Or.inl hd
            · exact Or.inr (Or.inl hd)
          · have h2 := List.mem_singleton.mp hd
            subst h2
            simp_all
    · rcases datasetPrep_trace_mem hd with hd | hd
      · exact Or.inl hd
      · exact Or.inr (Or.inl hd)

/-- Claim C6.  Every dataset creation performed by a visit step passes the
configured creation arguments exactly when the dataset shape is
non-scalar: a dataset-creation operation newly recorded in the trace
carries the empty argument list when its shape is the scalar shape and the
configured `create_dataset_args` otherwise. -/
theorem C6_scalar_args (cfg : Cfg) (st : H5State) (name : H5Path) (obj : SpecNode)
    (p : H5Path) (sh : List Nat) (a : List String)
    (hmem : H5Op.createDataset p sh a ∈
      (append_spec_member_to_h5 cfg st name obj).1.trace)
    (hnew : H5Op.createDataset p sh a ∉ st.trace) :
    a = (if sh = [] then [] else cfg.createDatasetArgs) := by
  cases obj with
  | linkToGroup => exact absurd hmem hnew
  | linkToDataset => exact absurd hmem hnew
  | group =>
    have hmem2 : H5Op.createDataset p sh a ∈
        (groupStep cfg st (targetPath cfg name)).1.trace := hmem
    rcases groupStep_trace_mem hmem2 with h | h | h | h
    · exact absurd h hnew
    · exact H5Op.noConfusion h.2
    · exact H5Op.noConfusion h.2
    · exact H5Op.noConfusion h
  | dataset shape data =>
    have hmem2 : H5Op.createDataset p sh a ∈
        (datasetStep cfg st (targetPath cfg name) shape data).1.trace := hmem
    rcases datasetStep_trace_mem hmem2 with h | h | h | h | h
    · exact absurd h hnew
    · exact H5Op.noConfusion h
    · injection h with e1 e2 e3
      subst e2
      exact e3
    · exact H5Op.noConfusion h.2
    · exact H5Op.noConfusion h

/-- Witness for C6: a scalar dataset created in an empty target receives
the empty argument list. -/
theorem C6_witness :
    H5Op.createDataset "/s".toList [] [] ∈
        (append_spec_member_to_h5 cfgHard st0 "/s".toList
          (SpecNode.dataset [] 3)).1.trace ∧
      ([] : List String) = (if ([] : List Nat) = [] then [] else cfgHard.createDatasetArgs) :=
  ⟨by decide, C6_scalar_args cfgHard st0 "/s".toList (SpecNode.dataset [] 3)
    "/s".toList [] [] (by decide) (by decide)⟩

/-- Claim C7, amended.  For every group node: the entry at the node's own
target path is preserved when it already existed and is a group created on
this pass otherwise; a group-creation operation for that path is newly
recorded exactly when the path was absent; and the group branch deletes
entries only at the derived alias link path, only under `overwrite=true`.
Existing groups elsewhere can still be deleted by the dataset-overwrite
and link-overwrite steps, which remove whatever entry occupies their
target path. -/
theorem C7_amended_thm (cfg : Cfg) (st : H5State) (name : H5Path)
    (hne : replaceInstr (targetPath cfg name) ++ "/info".toList ≠ targetPath cfg name) :
    findEntry (append_spec_member_to_h5 cfg st name SpecNode.group).1.h5f
        (targetPath cfg name) =
      (if hContains st.h5f (targetPath cfg name) then
        findEntry st.h5f (targetPath cfg name)
       else some Entry.group) ∧
      (H5Op.createGroup (targetPath cfg name) ∈
          (append_spec_member_to_h5 cfg st name SpecNode.group).1.trace ↔
        (H5Op.createGroup (targetPath cfg name) ∈ st.trace ∨
          hContains st.h5f (targetPath cfg name) = false)) ∧
      ∀ p : H5Path, H5Op.delete p ∈
          (append_spec_member_to_h5 cfg st name SpecNode.group).1.trace →
        H5Op.delete p ∈ st.trace ∨
          (cfg.overwrite = true ∧ p = replaceInstr (targetPath cfg name) ++ "/info".toList) := by
  have hg : append_spec_member_to_h5 cfg st name SpecNode.group =
      groupStep cfg st (targetPath cfg name) := rfl
  rw [hg]
  refine ⟨?_, ?_, ?_⟩
  · unfold groupStep
    cases hex : hContains st.h5f (targetPath cfg name) with
    | true =>
      simp only [hex, Bool.not_true, Bool.false_eq_true, if_false, if_true]
      split <;> rfl
    | false =>
      simp only [hex, Bool.not_false, if_true, Bool.false_eq_true, if_false]
      split
      · rw [create_link_findEntry_ne (Ne.symm hne)]
        simp only [doCreateGroup_h5f, logD_h5f]
        exact findEntry_append_single_self (hContains_false_iff.mp hex)
      · simp only [doCreateGroup_h5f, logD_h5f]
        exact findEntry_append_single_self (hContains_false_iff.mp hex)
  · constructor
    · intro hmem
      rcases groupStep_trace_mem hmem with h | h | h | h
      · exact Or.inl h
      · exact Or.inr h.1
      · exact H5Op.noConfusion h.2
      · exact H5Op.noConfusion h
    · intro hmem
      rcases hmem with h | h
      · exact groupStep_trace_mono h
      · exact groupStep_creates h
  · intro p hp
    rcases groupStep_trace_mem hp with h | h | h | h
    · exact Or.inl h
    · exact H5Op.noConfusion h.2
    · injection h.2 with e1
      exact Or.inr ⟨h.1, e1⟩
    · exact H5Op.noConfusion h

/-- Witness for the amended C7: a fresh group path in an empty target. -/
theorem C7_amended_witness :
    (replaceInstr (targetPath cfgHard "/g".toList) ++ "/info".toList ≠
        targetPath cfgHard "/g".toList) ∧
      findEntry (append_spec_member_to_h5 cfgHard st0 "/g".toList SpecNode.group).1.h5f
          (targetPath cfgHard "/g".toList) =
        (if hContains st0.h5f (targetPath cfgHard "/g".toList) then
          findEntry st0.h5f (targetPath cfgHard "/g".toList)
         else some Entry.group) :=
  ⟨by decide, (C7_amended_thm cfgHard st0 "/g".toList (by decide)).1⟩

theorem linkThenFinish_absent_bad {cfg : Cfg} {stC : H5State} {ln tn h5 : H5Path}
    {ex : Bool} (habs : hContains stC.h5f ln = false)
    (h1 : cfg.linkType ≠ "hard") (h2 : cfg.linkType ≠ "soft") :
    linkThenFinish cfg stC ln tn h5 ex =
      (logD stC ("Creating link ".toList ++ ln), some Err.valueError) := by
  unfold linkThenFinish
  rw [create_link_absent_bad habs h1 h2]

theorem linkThenFinish_absent_valid {cfg : Cfg} {stC : H5State} {ln tn h5 : H5Path}
    (habs : hContains stC.h5f ln = false)
    (hk : cfg.linkType = "hard" ∨ cfg.linkType = "soft") :
    (linkThenFinish cfg stC ln tn h5 false).2 = none ∧
      findEntry (linkThenFinish cfg stC ln tn h5 false).1.h5f ln =
        some (if cfg.linkType = "hard" then Entry.hardLink tn else Entry.softLink tn) := by
  unfold linkThenFinish
  have hval := @create_link_absent_valid cfg stC ln tn habs hk
  rcases hcl : create_link cfg stC ln tn with ⟨stD, err⟩
  rw [hcl] at hval
  obtain ⟨he, hf⟩ := hval
  cases err with
  | some e => exact absurd he (by simp)
  | none =>
    constructor
    · show (datasetFinish cfg stD h5 false).2 = none
      unfold datasetFinish
      simp
    · show findEntry (datasetFinish cfg stD h5 false).1.h5f ln = _
      have hD : (datasetFinish cfg stD h5 false).1 = stD := by
        unfold datasetFinish
        simp
      rw [hD]
      exact hf

/-- Claim C1, amended.  With an unrecognized link kind, the configuration
error is not raised before writes: visiting a dataset node whose target
path matches the derived-alias pattern while that path and the derived
link path are both still free first creates the dataset in the target and
then raises the configuration error at the alias link creation, so the
target already contains the newly created dataset (with its data and its
creation arguments) when the error surfaces. -/
theorem C1_amended_thm (cfg : Cfg) (st : H5State) (name : H5Path)
    (shape : List Nat) (data : Nat)
    (h1 : cfg.linkType ≠ "hard") (h2 : cfg.linkType ≠ "soft")
    (habs : hContains st.h5f (targetPath cfg name) = false)
    (hpat : mcaData (targetPath cfg name) = true)
    (hlabs : hContains st.h5f (replaceInstr (targetPath cfg name)) = false)
    (hne : replaceInstr (targetPath cfg name) ≠ targetPath cfg name) :
    (append_spec_member_to_h5 cfg st name (SpecNode.dataset shape data)).2 =
        some Err.valueError ∧
      findEntry (append_spec_member_to_h5 cfg st name
          (SpecNode.dataset shape data)).1.h5f (targetPath cfg name) =
        some (Entry.dataset shape data
          (if shape = [] then [] else cfg.createDatasetArgs)) := by
  have hd : append_spec_member_to_h5 cfg st name (SpecNode.dataset shape data) =
      datasetStep cfg st (targetPath cfg name) shape data := rfl
  rw [hd, datasetStep_absent_match cfg st (targetPath cfg name) shape data habs hpat]
  have hstC : hContains (doCreateDataset
      (logD st ("Saving dataset: ".toList ++ targetPath cfg name))
      (targetPath cfg name) shape data
      (if shape = [] then [] else cfg.createDatasetArgs)).h5f
      (replaceInstr (targetPath cfg name)) = false := by
    rw [hContains_false_iff]
    simp only [doCreateDataset_h5f, logD_h5f]
    rw [findEntry_append_single_ne hne]
    exact hContains_false_iff.mp hlabs
  rw [linkThenFinish_absent_bad hstC h1 h2]
  refine ⟨rfl, ?_⟩
  show findEntry (doCreateDataset
      (logD st ("Saving dataset: ".toList ++ targetPath cfg name))
      (targetPath cfg name) shape data
      (if shape = [] then [] else cfg.createDatasetArgs)).h5f (targetPath cfg name) = _
  simp only [doCreateDataset_h5f, logD_h5f]
  exact findEntry_append_single_self (hContains_false_iff.mp habs)

/-- Witness for the amended C1. -/
theorem C1_amended_witness :
    (append_spec_member_to_h5 cfgBad st0 "/1.1/instrument/mca_0/data".toList
        (SpecNode.dataset [2] 5)).2 = some Err.valueError ∧
      findEntry (append_spec_member_to_h5 cfgBad st0 "/1.1/instrument/mca_0/data".toList
          (SpecNode.dataset [2] 5)).1.h5f
        (targetPath cfgBad "/1.1/instrument/mca_0/data".toList) =
      some (Entry.dataset [2] 5
        (if ([2] : List Nat) = [] then [] else cfgBad.createDatasetArgs)) :=
  C1_amended_thm cfgBad st0 "/1.1/instrument/mca_0/data".toList [2] 5
    (by decide) (by decide) (by decide) (by decide) (by decide) (by decide)

/-- Claim C4, amended.  For every dataset created on this pass whose target
path matches the alias pattern, the derived link path is obtained by
replacing every occurrence of `instrument` by `measurement` in the target
path (which coincides with substitution at the matching segment exactly
when `instrument` occurs only there), and a link of the configured kind
from that derived path to the created dataset is placed in the target,
subject to the link collision policy. -/
theorem C4_amended_thm (cfg : Cfg) (st : H5State) (name : H5Path)
    (shape : List Nat) (data : Nat)
    (hk : cfg.linkType = "hard" ∨ cfg.linkType = "soft")
    (habs : hContains st.h5f (targetPath cfg name) = false)
    (hpat : mcaData (targetPath cfg name) = true)
    (hlabs : hContains st.h5f (replaceInstr (targetPath cfg name)) = false)
    (hne : replaceInstr (targetPath cfg name) ≠ targetPath cfg name) :
    (append_spec_member_to_h5 cfg st name (SpecNode.dataset shape data)).2 = none ∧
      findEntry (append_spec_member_to_h5 cfg st name (SpecNode.dataset shape data)).1.h5f
          (replaceInstr (targetPath cfg name)) =
        some (if cfg.linkType = "hard" then Entry.hardLink (targetPath cfg name)
              else Entry.softLink (targetPath cfg name)) := by
  have hd : append_spec_member_to_h5 cfg st name (SpecNode.dataset shape data) =
      datasetStep cfg st (targetPath cfg name) shape data := rfl
  rw [hd, datasetStep_absent_match cfg st (targetPath cfg name) shape data habs hpat]
  have hstC : hContains (doCreateDataset
      (logD st ("Saving dataset: ".toList ++ targetPath cfg name))
      (targetPath cfg name) shape data
      (if shape = [] then [] else cfg.createDatasetArgs)).h5f
      (replaceInstr (targetPath cfg name)) = false := by
    rw [hContains_false_iff]
    simp only [doCreateDataset_h5f, logD_h5f]
    rw [findEntry_append_single_ne hne]
    exact hContains_false_iff.mp hlabs
  exact linkThenFinish_absent_valid hstC hk

/-- Witness for the amended C4: the double-substitution instance. -/
theorem C4_amended_witness :
    (append_spec_member_to_h5 cfgMount st0 "/1.1/instrument/mca_0/data".toList
        (SpecNode.dataset [2] 9)).2 = none ∧
      findEntry (append_spec_member_to_h5 cfgMount st0 "/1.1/instrument/mca_0/data".toList
          (SpecNode.dataset [2] 9)).1.h5f
          (replaceInstr (targetPath cfgMount "/1.1/instrument/mca_0/data".toList)) =
        some (if cfgMount.linkType = "hard" then
            Entry.hardLink (targetPath cfgMount "/1.1/instrument/mca_0/data".toList)
          else Entry.softLink (targetPath cfgMount "/1.1/instrument/mca_0/data".toList)) :=
  C4_amended_thm cfgMount st0 "/1.1/instrument/mca_0/data".toList [2] 9
    (Or.inl rfl) (by decide) (by decide) (by decide) (by decide)

/-- Claim C9.  The dataset alias matcher accepts a path with no separator
between the mca index and `data`: for any target state in which the path
`/1.1/instrument/mca_0data` and its derived alias are free, converting a
dataset node with that name creates the dataset and also triggers the
derived-alias link creation, placing a hard link at
`/1.1/measurement/mca_0data`. -/
theorem C9_no_separator (st : H5State)
    (habs : hContains st.h5f "/1.1/instrument/mca_0data".toList = false)
    (hlabs : hContains st.h5f "/1.1/measurement/mca_0data".toList = false) :
    mcaData "/1.1/instrument/mca_0data".toList = true ∧
      (append_spec_member_to_h5 cfgHard st "/1.1/instrument/mca_0data".toList
          (SpecNode.dataset [2] 5)).2 = none ∧
      findEntry (append_spec_member_to_h5 cfgHard st "/1.1/instrument/mca_0data".toList
          (SpecNode.dataset [2] 5)).1.h5f "/1.1/measurement/mca_0data".toList =
        some (Entry.hardLink "/1.1/instrument/mca_0data".toList) := by
  have ht : targetPath cfgHard "/1.1/instrument/mca_0data".toList =
      "/1.1/instrument/mca_0data".toList := by decide
  have hr : replaceInstr "/1.1/instrument/mca_0data".toList =
      "/1.1/measurement/mca_0data".toList := by decide
  have hpat : mcaData "/1.1/instrument/mca_0data".toList = true := by decide
  refine ⟨hpat, ?_⟩
  have hd : append_spec_member_to_h5 cfgHard st "/1.1/instrument/mca_0data".toList
      (SpecNode.dataset [2] 5) =
      datasetStep cfgHard st "/1.1/instrument/mca_0data".toList [2] 5 := by
    show datasetStep cfgHard st
        (targetPath cfgHard "/1.1/instrument/mca_0data".toList) [2] 5 = _
    rw [ht]
  rw [hd, datasetStep_absent_match cfgHard st "/1.1/instrument/mca_0data".toList
    [2] 5 habs hpat, hr]
  have hstC : hContains (doCreateDataset
      (logD st ("Saving dataset: ".toList ++ "/1.1/instrument/mca_0data".toList))
      "/1.1/instrument/mca_0data".toList [2] 5
      (if ([2] : List Nat) = [] then [] else cfgHard.createDatasetArgs)).h5f
      "/1.1/measurement/mca_0data".toList = false := by
    rw [hContains_false_iff]
    simp only [doCreateDataset_h5f, logD_h5f]
    rw [findEntry_append_single_ne (by decide)]
    exact hContains_false_iff.mp hlabs
  have hval := @linkThenFinish_absent_valid cfgHard
    (doCreateDataset
      (logD st ("Saving dataset: ".toList ++ "/1.1/instrument/mca_0data".toList))
      "/1.1/instrument/mca_0data".toList [2] 5
      (if ([2] : List Nat) = [] then [] else cfgHard.createDatasetArgs))
    "/1.1/measurement/mca_0data".toList "/1.1/instrument/mca_0data".toList
    "/1.1/instrument/mca_0data".toList hstC (Or.inl rfl)
  obtain ⟨he, hf⟩ := hval
  refine ⟨he, ?_⟩
  rw [hf]
  rfl

/-- Witness for C9: the empty target instance. -/
theorem C9_witness :
    mcaData "/1.1/instrument/mca_0data".toList = true ∧
      (append_spec_member_to_h5 cfgHard st0 "/1.1/instrument/mca_0data".toList
          (SpecNode.dataset [2] 5)).2 = none ∧
      findEntry (append_spec_member_to_h5 cfgHard st0 "/1.1/instrument/mca_0data".toList
          (SpecNode.dataset [2] 5)).1.h5f "/1.1/measurement/mca_0data".toList =
        some (Entry.hardLink "/1.1/instrument/mca_0data".toList) :=
  C9_no_separator st0 (by decide) (by decide)
